import Mathlib

/-!
Verification of the multi-tenant hybrid retrieval subsystem of
`cloud_vector_store.py` (`CloudVectorStore` / `CloudSecureCollection`):
tenant-scoped document storage, cached vector search with hybrid
(vector + keyword) reranking, and TTL cache eviction.

Modelling conventions, stated once:
* Python `str` is `Str := List Char`; `str.lower()` is `List.map Char.toLower`.
* Python `dict` with string keys is an insertion-ordered association list
  with distinct keys (`StrDict`); `d[k] = v` keeps the position of an
  existing key and appends a new one (`dinsert`), `d.update(u)` assigns the
  entries of `u` in order (`dupdate`).  A `filters` argument of `None` is
  modelled as the empty dict: `None` and `\x7b\x7d` are both falsy and the code only
  tests the dict's truthiness before using it.
* Python floats (`time.time()` timestamps, the TTL, distances and scores)
  are modelled as exact rationals; `min(a, b)` on them is `ratMin`.
* ChromaDB nests each field of a query result in a singleton outer list
  (one entry per query text); the model carries the single inner list.
* The MD5 hex digest taken at the end of `_get_cache_key` is a fixed
  function of its input string, so every key equality proved on the
  pre-image holds of the digest as well; the model uses the pre-image
  string as the key.
-/

/-- Python `str`, as its list of characters. -/
abbrev Str := List Char

/-- A Python `dict` with string keys: an insertion-ordered association list
whose keys are distinct. -/
abbrev StrDict (β : Type) := List (String × β)

/-- Metadata records, filter mappings and where clauses: scalar values are
modelled as strings. -/
abbrev Filters := StrDict String

/-- Python `d[k] = v`: replace the value in place when the key exists,
otherwise append the new entry at the end. -/
def dinsert {β : Type} (k : String) (v : β) : StrDict β → StrDict β
  | [] => [(k, v)]
  | (k', v') :: rest => if k' = k then (k, v) :: rest else (k', v') :: dinsert k v rest

/-- Python `d.get(k)`: the value at the first matching key, if any. -/
def dlookup {β : Type} (k : String) : StrDict β → Option β
  | [] => none
  | (k', v) :: rest => if k' = k then some v else dlookup k rest

/-- Python `d.update(u)`: assign every entry of `u` into `d`, in order. -/
def dupdate {β : Type} (d u : StrDict β) : StrDict β :=
  u.foldl (fun acc p => dinsert p.1 p.2 acc) d

/-- Python `min` on rationals (the floats of the source), written so that it
is executable; it agrees with `Min.min` (`ratMin_eq_min`). -/
def ratMin (a b : ℚ) : ℚ := if a ≤ b then a else b

theorem ratMin_eq_min (a b : ℚ) : ratMin a b = min a b := (min_def a b).symm

/-- The shape returned by `collection.query` and by `search`: parallel lists
of documents, ids, distances and metadata records.  `metadatas` is `none`
when the mapping holds `None` there, and `relevance_scores` is `some` exactly
when the code put that key into the mapping (the raw index result has no such
key; `_apply_hybrid_search` and the error fallback of `search` add it). -/
structure QueryResult where
  documents : List Str
  ids : List String
  distances : List ℚ
  metadatas : Option (List Filters)
  relevance_scores : Option (List ℚ)
deriving DecidableEq

/-- The fallback value `search` returns on an index error (line 252 of the
source): every field is an empty list. -/
def emptyResult : QueryResult := ⟨[], [], [], some [], some []⟩

/-- The word characters of the regex `\w` in `re.findall(r'\b\w+\b', ...)`:
letters, digits and underscore. -/
def isWordChar (c : Char) : Bool := c.isAlphanum || c = '_'

/-- `re.findall(r'\b\w+\b', s)`: the maximal runs of word characters of `s`. -/
def findWords (s : Str) : List Str :=
  (s.splitOnP (fun c => !isWordChar c)).filter (fun w => !w.isEmpty)

/-- The stop-word set `common_words` of `_extract_keywords` (line 314),
verbatim (the source lists `"but"` twice; as for the Python set, membership
is unaffected). -/
def common_words : List String :=
  ["the", "a", "an", "in", "on", "at", "to", "for", "with", "by", "about",
   "like", "through", "over", "before", "between", "after", "since",
   "without", "under", "within", "along", "following", "across", "behind",
   "beyond", "plus", "except", "but", "up", "out", "around", "down", "off",
   "above", "near", "and", "or", "but", "so", "yet", "is", "are", "was",
   "were", "be", "been", "being", "have", "has", "had", "do", "does", "did",
   "can", "could", "will", "would", "shall", "should", "may", "might",
   "must", "of"]

/-- `_extract_keywords` (lines 311-320): lowercase the query, take the word
runs, drop stop words and words of length at most 2. -/
def extract_keywords (query : Str) : List Str :=
  (findWords (query.map Char.toLower)).filter
    (fun word => !(common_words.contains (String.mk word)) && decide (2 < word.length))

/-- `_calculate_keyword_score` (lines 322-339): 0 for an empty keyword list;
otherwise the fraction of keywords occurring as substrings of the lowercased
text, plus a 0.3 bonus capped at 1 when the keywords joined by single spaces
occur in the lowercased text. -/
def calculate_keyword_score (text : Str) (keywords : List Str) : ℚ :=
  if keywords.isEmpty then 0
  else
    let text_lower := text.map Char.toLower
    let match_count := (keywords.filter (fun keyword => decide (keyword <:+: text_lower))).length
    let score := (match_count : ℚ) / (keywords.length : ℚ)
    if List.intercalate [' '] keywords <:+: text_lower then ratMin (score + 3/10) 1 else score

/-- `vector_score = 1.0 - min(distance, 1.0)` (line 287). -/
def vector_score (distance : ℚ) : ℚ := 1 - ratMin distance 1

/-- `combined_score = (vector_score * 0.7) + (keyword_score * 0.3)`
(line 290). -/
def combined_score (doc : Str) (keywords : List Str) (distance : ℚ) : ℚ :=
  vector_score distance * (7/10) + calculate_keyword_score doc keywords * (3/10)

/-- The `hybrid_scores` list of `_apply_hybrid_search` (lines 280-292): one
`(index, combined_score)` pair per candidate of
`enumerate(zip(documents, distances))`. -/
def hybrid_scores (query_text : Str) (docs : List Str) (dists : List ℚ) : List (ℕ × ℚ) :=
  let keywords := extract_keywords query_text
  ((docs.zip dists).enum).map (fun p => (p.1, combined_score p.2.1 keywords p.2.2))

/-- Line 295, `hybrid_scores.sort(key=lambda x: x[1], reverse=True)`:
descending stable sort by combined score (Python's sort is stable, and
`reverse=True` reverses the comparison, not the list; `List.mergeSort` with
this comparison is the same stable descending order). -/
def rankedScores (query_text : Str) (docs : List Str) (dists : List ℚ) : List (ℕ × ℚ) :=
  (hybrid_scores query_text docs dists).mergeSort (fun a b => decide (b.2 ≤ a.2))

/-- `_apply_hybrid_search` (lines 264-309): rerank by combined score, keep
the first `n_results` indices of the sorted list, and rebuild every result
list by indexing with them.  The indices come from
`enumerate(zip(documents, distances))`, so they are in range for `documents`
and `distances`; `getD` models the Python indexing of the parallel lists. -/
def apply_hybrid_search (query_text : Str) (res : QueryResult) (n_results : ℕ) : QueryResult :=
  let ranked := rankedScores query_text res.documents res.distances
  let top_indices := (ranked.take n_results).map Prod.fst
  { documents := top_indices.map (fun i => res.documents.getD i [])
    ids := top_indices.map (fun i => res.ids.getD i "")
    distances := top_indices.map (fun i => res.distances.getD i 0)
    metadatas :=
      match res.metadatas with
      | some ms => some (top_indices.map (fun i => ms.getD i []))
      | none => none
    relevance_scores := some ((ranked.take n_results).map Prod.snd) }

/-- The `search_cache` of the parent `CloudVectorStore` (line 61), shared by
every collection of the store: key, then `(timestamp, results)`. -/
abbrev Cache := StrDict (ℚ × QueryResult)

/-- `json.dumps(filters, sort_keys=True)` serializes the entries in
ascending key order: the key-sorted form of the dict. -/
def sortedFilters (filters : Filters) : Filters :=
  filters.mergeSort (fun a b => decide (a.1 ≤ b.1))

/-- One `"key": "value"` pair of the serialized JSON text. -/
def renderPair (p : String × String) : Str :=
  '"' :: p.1.toList ++ '"' :: ':' :: ' ' :: '"' :: p.2.toList ++ ['"']

/-- The serialized text `json.dumps(filters, sort_keys=True)` (line 347):
the key-sorted entries rendered between the JSON braces. -/
def filterStr (filters : Filters) : Str :=
  Char.ofNat 123 ::
    (List.intercalate [',', ' '] ((sortedFilters filters).map renderPair) ++ [Char.ofNat 125])

/-- `_get_cache_key` (lines 341-352): join `query_text`, `str(n_results)`
and, when `filters` is truthy (non-empty), its sorted JSON text, with
underscores.  The code then hashes this string with MD5; the model keeps the
pre-image (see the header). -/
def get_cache_key (query_text : Str) (filters : Filters) (n_results : ℕ) : String :=
  String.mk (List.intercalate ['_']
    ([query_text, (toString n_results).toList] ++
      if filters.isEmpty then [] else [filterStr filters]))

/-- `_get_from_cache` (lines 354-360): serve the stored result only while
`now - timestamp < cache_ttl`; an expired entry is skipped but not removed.
`now` stands for `time.time()` and `cache_ttl` for
`self.vector_store.cache_ttl` (300 in the code). -/
def get_from_cache (cache_ttl : ℚ) (cache : Cache) (now : ℚ) (cache_key : String) :
    Option QueryResult :=
  match dlookup cache_key cache with
  | some (timestamp, results) => if now - timestamp < cache_ttl then some results else none
  | none => none

/-- `_clean_cache` (lines 370-380): delete every entry with
`now - timestamp > cache_ttl`; equivalently, keep the entries with
`now - timestamp ≤ cache_ttl`. -/
def clean_cache (cache_ttl now : ℚ) (cache : Cache) : Cache :=
  cache.filter (fun e => decide (now - e.2.1 ≤ cache_ttl))

/-- `_add_to_cache` (lines 362-368): store the result under the key with the
current timestamp, then sweep when the store holds more than 100 entries. -/
def add_to_cache (cache_ttl : ℚ) (cache : Cache) (now : ℚ) (cache_key : String)
    (results : QueryResult) : Cache :=
  let cache' := dinsert cache_key (now, results) cache
  if 100 < cache'.length then clean_cache cache_ttl now cache' else cache'

/-- The where clause of `search` (lines 225-228): start from the company tag
and `update` with the caller's filters — a later assignment to the same key
wins. -/
def build_where_clause (company_id : String) (filters : Filters) : Filters :=
  dupdate [("company_id", company_id)] filters

/-- What one `search` call produced: the returned result, the cache
afterwards, and the `(n_results, where)` arguments of each
`collection.query` call it issued. -/
structure SearchOutcome where
  result : QueryResult
  cache : Cache
  indexCalls : List (ℕ × Filters)
deriving DecidableEq

/-- `CloudSecureCollection.search` (lines 200-252).  The backing index is
the function `index`, taking the requested `n_results` and the where clause
and returning a result or an error; `now` stands for `time.time()`.  Cache
check first; on a miss, the company where clause is built and updated with
the caller's filters, `n_results * 2` candidates are requested when hybrid
search is on, hybrid reranking runs when the returned documents list is
non-empty, and the (reranked) result is cached.  An index error yields
`emptyResult` and leaves the cache untouched (lines 250-252). -/
def search (company_id : String) (index : ℕ → Filters → Except Unit QueryResult)
    (cache_ttl now : ℚ) (cache : Cache) (query_text : Str) (n_results : ℕ)
    (filters : Filters) (use_hybrid : Bool) : SearchOutcome :=
  let cache_key := get_cache_key query_text filters n_results
  match get_from_cache cache_ttl cache now cache_key with
  | some cached_results => ⟨cached_results, cache, []⟩
  | none =>
    let where_clause := build_where_clause company_id filters
    let count := if use_hybrid then n_results * 2 else n_results
    match index count where_clause with
    | Except.error _ => ⟨emptyResult, cache, [(count, where_clause)]⟩
    | Except.ok results =>
      let results' :=
        if use_hybrid && !results.documents.isEmpty
        then apply_hybrid_search query_text results n_results else results
      ⟨results', add_to_cache cache_ttl cache now cache_key results', [(count, where_clause)]⟩

/-- The per-element normalization of the `for` loop of `add_documents`
(lines 177-181): a `None` element becomes a fresh `company_id` record; any
other record gets `company_id` assigned over whatever the caller put
there. -/
def tag_metadata (company_id : String) : Option Filters → Filters
  | none => [("company_id", company_id)]
  | some metadata => dinsert "company_id" company_id metadata

/-- The metadata normalization of `add_documents` (lines 176-183): a `None`
metadata list (and, by Python falsiness, an empty one) is replaced by one
fresh `company_id` record per document; otherwise each element is
normalized by `tag_metadata`. -/
def ensure_metadatas (company_id : String) (num_documents : ℕ)
    (metadatas : Option (List (Option Filters))) : List Filters :=
  match metadatas with
  | some ms =>
      if ms.isEmpty then List.replicate num_documents [("company_id", company_id)]
      else ms.map (tag_metadata company_id)
  | none => List.replicate num_documents [("company_id", company_id)]

/-- Modelled from the spec: the external EmbeddingIndex (ChromaDB Cloud, not
part of this repository) answers a query by treating `where` as a
conjunctive equality filter over the metadata (spec section 6). -/
def matchesWhere (metadata : Filters) (where_clause : Filters) : Bool :=
  where_clause.all (fun p => dlookup p.1 metadata == some p.2)

/-- Modelled from the spec: a concrete EmbeddingIndex over a fixed store of
`(id, text, distance, metadata)` rows, returning at most `n_results` rows
whose metadata satisfies the conjunctive `where` clause. -/
def indexOf (store : List (String × Str × ℚ × Filters)) :
    ℕ → Filters → Except Unit QueryResult :=
  fun n_results where_clause =>
    let hits := (store.filter (fun d => matchesWhere d.2.2.2 where_clause)).take n_results
    Except.ok
      { documents := hits.map (fun d => d.2.1)
        ids := hits.map (fun d => d.1)
        distances := hits.map (fun d => d.2.2.1)
        metadatas := some (hits.map (fun d => d.2.2.2))
        relevance_scores := none }

/-! ### Dict lemmas -/

theorem dlookup_dinsert_self {β : Type} (k : String) (v : β) (d : StrDict β) :
    dlookup k (dinsert k v d) = some v := by
  induction d with
  | nil => simp [dinsert, dlookup]
  | cons hd tl ih =>
    obtain ⟨k', v'⟩ := hd
    by_cases h : k' = k
    · simp [dinsert, dlookup, h]
    · simp [dinsert, dlookup, h, ih]

theorem dlookup_dinsert_ne {β : Type} (k k' : String) (v : β) (d : StrDict β)
    (h : k' ≠ k) : dlookup k' (dinsert k v d) = dlookup k' d := by
  induction d with
  | nil => simp [dinsert, dlookup, Ne.symm h]
  | cons hd tl ih =>
    obtain ⟨k₀, v₀⟩ := hd
    by_cases hk : k₀ = k
    · simp [dinsert, dlookup, hk, Ne.symm h]
    · by_cases hk' : k₀ = k' <;> simp [dinsert, dlookup, hk, hk', ih, h]

theorem mem_dinsert {β : Type} (e : String × β) (k : String) (v : β) (d : StrDict β)
    (he : e ∈ dinsert k v d) : e = (k, v) ∨ e ∈ d := by
  induction d with
  | nil => simpa [dinsert] using he
  | cons hd tl ih =>
    obtain ⟨k', v'⟩ := hd
    by_cases h : k' = k
    · simp only [dinsert, if_pos h] at he
      rcases List.mem_cons.mp he with he1 | he1
      · exact Or.inl he1
      · exact Or.inr (List.mem_cons_of_mem _ he1)
    · simp only [dinsert, if_neg h] at he
      rcases List.mem_cons.mp he with he1 | he1
      · exact Or.inr (he1 ▸ List.mem_cons_self _ _)
      · rcases ih he1 with h1 | h1
        · exact Or.inl h1
        · exact Or.inr (List.mem_cons_of_mem _ h1)

theorem mem_dinsert_of_mem {β : Type} {e : String × β} {d : StrDict β} (k : String) (v : β)
    (he : e ∈ d) (hne : e.1 ≠ k) : e ∈ dinsert k v d := by
  induction d with
  | nil => cases he
  | cons hd tl ih =>
    obtain ⟨k', v'⟩ := hd
    by_cases h : k' = k
    · rcases List.mem_cons.mp he with he1 | he1
      · exfalso
        apply hne
        rw [he1]
        exact h
      · simp only [dinsert, if_pos h]
        exact List.mem_cons_of_mem _ he1
    · rcases List.mem_cons.mp he with he1 | he1
      · simp only [dinsert, if_neg h]
        exact he1 ▸ List.mem_cons_self _ _
      · simp only [dinsert, if_neg h]
        exact List.mem_cons_of_mem _ (ih he1)

theorem length_le_length_dinsert {β : Type} (k : String) (v : β) (d : StrDict β) :
    d.length ≤ (dinsert k v d).length := by
  induction d with
  | nil => simp [dinsert]
  | cons hd tl ih =>
    obtain ⟨k', v'⟩ := hd
    by_cases h : k' = k
    · simp [dinsert, h]
    · simp only [dinsert, if_neg h, List.length_cons]
      omega

/-! ### Cache lemmas -/

theorem get_from_cache_nil (cache_ttl now : ℚ) (key : String) :
    get_from_cache cache_ttl [] now key = none := rfl

theorem get_from_cache_expired (cache_ttl : ℚ) (cache : Cache) (now : ℚ) (key : String)
    (timestamp : ℚ) (r : QueryResult) (hentry : dlookup key cache = some (timestamp, r))
    (hexp : cache_ttl ≤ now - timestamp) :
    get_from_cache cache_ttl cache now key = none := by
  unfold get_from_cache
  rw [hentry]
  exact if_neg (not_lt.mpr hexp)

theorem get_from_cache_live (cache_ttl : ℚ) (cache : Cache) (now : ℚ) (key : String)
    (timestamp : ℚ) (r : QueryResult) (hentry : dlookup key cache = some (timestamp, r))
    (hlive : now - timestamp < cache_ttl) :
    get_from_cache cache_ttl cache now key = some r := by
  unfold get_from_cache
  rw [hentry]
  exact if_pos hlive

theorem add_to_cache_nil (cache_ttl now : ℚ) (key : String) (r : QueryResult) :
    add_to_cache cache_ttl [] now key r = [(key, (now, r))] := rfl

/-! ### `search` unfolding lemmas -/

theorem search_hit (company_id : String) (index : ℕ → Filters → Except Unit QueryResult)
    (cache_ttl now : ℚ) (cache : Cache) (query_text : Str) (n_results : ℕ)
    (filters : Filters) (use_hybrid : Bool) (r : QueryResult)
    (h : get_from_cache cache_ttl cache now (get_cache_key query_text filters n_results) = some r) :
    search company_id index cache_ttl now cache query_text n_results filters use_hybrid =
      ⟨r, cache, []⟩ := by
  unfold search
  dsimp only
  rw [h]

theorem search_miss_ok (company_id : String) (index : ℕ → Filters → Except Unit QueryResult)
    (cache_ttl now : ℚ) (cache : Cache) (query_text : Str) (n_results : ℕ)
    (filters : Filters) (use_hybrid : Bool) (results : QueryResult)
    (hmiss : get_from_cache cache_ttl cache now (get_cache_key query_text filters n_results) = none)
    (hok : index (if use_hybrid then n_results * 2 else n_results)
        (build_where_clause company_id filters) = Except.ok results) :
    search company_id index cache_ttl now cache query_text n_results filters use_hybrid =
      ⟨(if use_hybrid && !results.documents.isEmpty
          then apply_hybrid_search query_text results n_results else results),
        add_to_cache cache_ttl cache now (get_cache_key query_text filters n_results)
          (if use_hybrid && !results.documents.isEmpty
            then apply_hybrid_search query_text results n_results else results),
        [(if use_hybrid then n_results * 2 else n_results,
          build_where_clause company_id filters)]⟩ := by
  unfold search
  dsimp only
  rw [hmiss, hok]

theorem search_miss_error (company_id : String) (index : ℕ → Filters → Except Unit QueryResult)
    (cache_ttl now : ℚ) (cache : Cache) (query_text : Str) (n_results : ℕ)
    (filters : Filters) (use_hybrid : Bool) (e : Unit)
    (hmiss : get_from_cache cache_ttl cache now (get_cache_key query_text filters n_results) = none)
    (herr : index (if use_hybrid then n_results * 2 else n_results)
        (build_where_clause company_id filters) = Except.error e) :
    search company_id index cache_ttl now cache query_text n_results filters use_hybrid =
      ⟨emptyResult, cache,
        [(if use_hybrid then n_results * 2 else n_results,
          build_where_clause company_id filters)]⟩ := by
  unfold search
  dsimp only
  rw [hmiss, herr]

/-! ### Claim C1 -/

/-- C1: the claim — that the where clause of a tenant-A search always
constrains the tenant tag to A's id, whatever filters the caller supplies —
fails on the code: line 228 runs `where_clause.update(filters)`, so a
caller-supplied `company_id` filter replaces the tenant's own id.  Evaluated
at the failing input (tenant A searching with filters naming tenant B's id):
the where clause sent to the index binds `company_id` to `"tenantB"`, and
against an index honouring the conjunctive `where` contract of the spec the
search returns tenant B's document, tagged `company_id = "tenantB"`. -/
theorem C1_tenant_filter_override :
    dlookup "company_id" (build_where_clause "tenantA" [("company_id", "tenantB")]) =
      some "tenantB" ∧
    (search "tenantA"
        (indexOf [("docB", "hello from B".toList, 0, [("company_id", "tenantB")])])
        300 0 [] "hello".toList 1 [("company_id", "tenantB")] false).result.documents =
      ["hello from B".toList] ∧
    (search "tenantA"
        (indexOf [("docB", "hello from B".toList, 0, [("company_id", "tenantB")])])
        300 0 [] "hello".toList 1 [("company_id", "tenantB")] false).result.metadatas =
      some [[("company_id", "tenantB")]] :=
  ⟨rfl, rfl, rfl⟩

/-! ### Claim C2 -/

/-- C2: the cache key is computed from `(query_text, n_results, filters)`
only — not the collection name, the company id or the hybrid flag — and the
cache lives on the parent store, shared by all its collections.  Hence after
a search on company A's collection fills the cache, a search on company B's
collection of the same store with the same query triple — whatever its
hybrid flag and whatever B's index would answer — returns A's cached result
verbatim within the TTL and issues no index query. -/
theorem C2_cache_shared_across_collections
    (cidA cidB : String) (idxA idxB : ℕ → Filters → Except Unit QueryResult)
    (cache_ttl tA tB : ℚ) (query_text : Str) (n_results : ℕ) (filters : Filters)
    (hyA hyB : Bool) (res : QueryResult)
    (hok : idxA (if hyA then n_results * 2 else n_results)
        (build_where_clause cidA filters) = Except.ok res)
    (hfresh : tB - tA < cache_ttl) :
    (search cidB idxB cache_ttl tB
        (search cidA idxA cache_ttl tA [] query_text n_results filters hyA).cache
        query_text n_results filters hyB).result =
      (search cidA idxA cache_ttl tA [] query_text n_results filters hyA).result ∧
    (search cidB idxB cache_ttl tB
        (search cidA idxA cache_ttl tA [] query_text n_results filters hyA).cache
        query_text n_results filters hyB).indexCalls = [] := by
  have h1 := search_miss_ok cidA idxA cache_ttl tA [] query_text n_results filters hyA res
    (get_from_cache_nil cache_ttl tA _) hok
  rw [h1, add_to_cache_nil]
  have h2 := search_hit cidB idxB cache_ttl tB
    [(get_cache_key query_text filters n_results,
      (tA, if hyA && !res.documents.isEmpty
        then apply_hybrid_search query_text res n_results else res))]
    query_text n_results filters hyB
    (if hyA && !res.documents.isEmpty
      then apply_hybrid_search query_text res n_results else res)
    (get_from_cache_live _ _ _ _ _ _ (by simp [dlookup]) hfresh)
  rw [h2]
  exact ⟨rfl, rfl⟩

/-- Witness for C2, at concrete inputs: company A's search (hybrid off)
caches; company B's search (hybrid on, an index that would fail) still
returns A's result from the shared cache, with no index call. -/
theorem C2_cache_shared_across_collections_witness :
    ((fun _ _ => Except.ok emptyResult : ℕ → Filters → Except Unit QueryResult)
        (if false then 1 * 2 else 1) (build_where_clause "companyA" []) =
      Except.ok emptyResult) ∧
    ((0 : ℚ) - 0 < 300) ∧
    ((search "companyB" (fun _ _ => Except.error ()) 300 0
        (search "companyA" (fun _ _ => Except.ok emptyResult) 300 0 [] [] 1 [] false).cache
        [] 1 [] true).result =
      (search "companyA" (fun _ _ => Except.ok emptyResult) 300 0 [] [] 1 [] false).result ∧
     (search "companyB" (fun _ _ => Except.error ()) 300 0
        (search "companyA" (fun _ _ => Except.ok emptyResult) 300 0 [] [] 1 [] false).cache
        [] 1 [] true).indexCalls = []) :=
  ⟨rfl, by norm_num,
    C2_cache_shared_across_collections "companyA" "companyB"
      (fun _ _ => Except.ok emptyResult) (fun _ _ => Except.error ())
      300 0 0 [] 1 [] false true emptyResult rfl (by norm_num)⟩

/-! ### Claim C4 -/

/-- C4: on a cache miss where the index query errors, `search` returns the
well-formed empty result — zero documents — instead of propagating, and the
cache is left exactly as it was: the failed result is not stored. -/
theorem C4_index_error_empty_result (company_id : String)
    (index : ℕ → Filters → Except Unit QueryResult) (cache_ttl now : ℚ) (cache : Cache)
    (query_text : Str) (n_results : ℕ) (filters : Filters) (use_hybrid : Bool) (e : Unit)
    (hmiss : get_from_cache cache_ttl cache now
        (get_cache_key query_text filters n_results) = none)
    (herr : index (if use_hybrid then n_results * 2 else n_results)
        (build_where_clause company_id filters) = Except.error e) :
    (search company_id index cache_ttl now cache query_text n_results filters
        use_hybrid).result = emptyResult ∧
    emptyResult.documents.length = 0 ∧
    (search company_id index cache_ttl now cache query_text n_results filters
        use_hybrid).cache = cache := by
  rw [search_miss_error company_id index cache_ttl now cache query_text n_results filters
    use_hybrid e hmiss herr]
  exact ⟨rfl, rfl, rfl⟩

/-- Witness for C4, at concrete inputs. -/
theorem C4_index_error_empty_result_witness :
    get_from_cache 300 ([] : Cache) 0 (get_cache_key [] [] 1) = none ∧
    ((search "acme" (fun _ _ => Except.error ()) 300 0 [] [] 1 [] true).result =
        emptyResult ∧
      emptyResult.documents.length = 0 ∧
      (search "acme" (fun _ _ => Except.error ()) 300 0 [] [] 1 [] true).cache = []) :=
  ⟨rfl, C4_index_error_empty_result "acme" (fun _ _ => Except.error ())
    300 0 [] [] 1 [] true () rfl rfl⟩

/-! ### Claim C5 -/

/-- C5: a cache entry whose age is at least the TTL is absent for the getter
even before any sweep; the same query re-issued within the TTL of a first
successful search returns the identical result without invoking the index;
re-issued once the TTL has elapsed since the first call, the index is
invoked again. -/
theorem C5_ttl_and_reissue
    (cache_ttl : ℚ) (cache : Cache) (now : ℚ) (key : String) (timestamp : ℚ) (r : QueryResult)
    (company_id : String) (idx1 idx2 idx3 : ℕ → Filters → Except Unit QueryResult)
    (tA tB tC : ℚ) (query_text : Str) (n_results : ℕ) (filters : Filters) (use_hybrid : Bool)
    (res : QueryResult)
    (hentry : dlookup key cache = some (timestamp, r))
    (hexp : cache_ttl ≤ now - timestamp)
    (hok : idx1 (if use_hybrid then n_results * 2 else n_results)
        (build_where_clause company_id filters) = Except.ok res)
    (hB : tB - tA < cache_ttl)
    (hC : cache_ttl ≤ tC - tA) :
    get_from_cache cache_ttl cache now key = none ∧
    (search company_id idx2 cache_ttl tB
        (search company_id idx1 cache_ttl tA [] query_text n_results filters use_hybrid).cache
        query_text n_results filters use_hybrid).result =
      (search company_id idx1 cache_ttl tA [] query_text n_results filters use_hybrid).result ∧
    (search company_id idx2 cache_ttl tB
        (search company_id idx1 cache_ttl tA [] query_text n_results filters use_hybrid).cache
        query_text n_results filters use_hybrid).indexCalls = [] ∧
    (search company_id idx3 cache_ttl tC
        (search company_id idx1 cache_ttl tA [] query_text n_results filters use_hybrid).cache
        query_text n_results filters use_hybrid).indexCalls =
      [(if use_hybrid then n_results * 2 else n_results,
        build_where_clause company_id filters)] := by
  have h1 := search_miss_ok company_id idx1 cache_ttl tA [] query_text n_results filters
    use_hybrid res (get_from_cache_nil cache_ttl tA _) hok
  have h2 := search_hit company_id idx2 cache_ttl tB
    [(get_cache_key query_text filters n_results,
      (tA, if use_hybrid && !res.documents.isEmpty
        then apply_hybrid_search query_text res n_results else res))]
    query_text n_results filters use_hybrid
    (if use_hybrid && !res.documents.isEmpty
      then apply_hybrid_search query_text res n_results else res)
    (get_from_cache_live cache_ttl
      [(get_cache_key query_text filters n_results,
        (tA, if use_hybrid && !res.documents.isEmpty
          then apply_hybrid_search query_text res n_results else res))]
      tB (get_cache_key query_text filters n_results) tA
      (if use_hybrid && !res.documents.isEmpty
        then apply_hybrid_search query_text res n_results else res)
      (by simp [dlookup]) hB)
  have hmiss3 : get_from_cache cache_ttl
      [(get_cache_key query_text filters n_results,
        (tA, if use_hybrid && !res.documents.isEmpty
          then apply_hybrid_search query_text res n_results else res))] tC
      (get_cache_key query_text filters n_results) = none :=
    get_from_cache_expired cache_ttl
      [(get_cache_key query_text filters n_results,
        (tA, if use_hybrid && !res.documents.isEmpty
          then apply_hybrid_search query_text res n_results else res))]
      tC (get_cache_key query_text filters n_results) tA
      (if use_hybrid && !res.documents.isEmpty
        then apply_hybrid_search query_text res n_results else res)
      (by simp [dlookup]) hC
  refine ⟨get_from_cache_expired cache_ttl cache now key timestamp r hentry hexp, ?_, ?_, ?_⟩
  · rw [h1]
    dsimp only
    rw [add_to_cache_nil, h2]
  · rw [h1]
    dsimp only
    rw [add_to_cache_nil, h2]
  · rw [h1]
    dsimp only
    rw [add_to_cache_nil]
    rcases hidx3 : idx3 (if use_hybrid then n_results * 2 else n_results)
        (build_where_clause company_id filters) with e3 | res3
    · rw [search_miss_error company_id idx3 cache_ttl tC _ query_text n_results filters
        use_hybrid e3 hmiss3 hidx3]
    · rw [search_miss_ok company_id idx3 cache_ttl tC _ query_text n_results filters
        use_hybrid res3 hmiss3 hidx3]

/-- Witness for C5, at concrete inputs: an entry aged exactly the TTL is
already absent; a re-issue at 100 seconds hits the cache, a re-issue at 300
seconds (the TTL) queries the index again. -/
theorem C5_ttl_and_reissue_witness :
    dlookup "k" ([("k", ((0 : ℚ), emptyResult))] : Cache) = some (0, emptyResult) ∧
    ((300 : ℚ) ≤ 300 - 0) ∧
    ((100 : ℚ) - 0 < 300) ∧
    (get_from_cache 300 [("k", ((0 : ℚ), emptyResult))] 300 "k" = none ∧
      (search "acme" (fun _ _ => Except.error ()) 300 100
          (search "acme" (fun _ _ => Except.ok emptyResult) 300 0 [] [] 1 [] false).cache
          [] 1 [] false).result =
        (search "acme" (fun _ _ => Except.ok emptyResult) 300 0 [] [] 1 [] false).result ∧
      (search "acme" (fun _ _ => Except.error ()) 300 100
          (search "acme" (fun _ _ => Except.ok emptyResult) 300 0 [] [] 1 [] false).cache
          [] 1 [] false).indexCalls = [] ∧
      (search "acme" (fun _ _ => Except.error ()) 300 300
          (search "acme" (fun _ _ => Except.ok emptyResult) 300 0 [] [] 1 [] false).cache
          [] 1 [] false).indexCalls =
        [(if false then 1 * 2 else 1, build_where_clause "acme" [])]) :=
  ⟨rfl, by norm_num, by norm_num,
    C5_ttl_and_reissue 300 [("k", ((0 : ℚ), emptyResult))] 300 "k" 0 emptyResult
      "acme" (fun _ _ => Except.ok emptyResult) (fun _ _ => Except.error ())
      (fun _ _ => Except.error ()) 0 100 300 [] 1 [] false emptyResult
      rfl (by norm_num) rfl (by norm_num) (by norm_num)⟩

/-! ### Claim C3 -/

theorem dlookup_tag_metadata (company_id : String) (m : Option Filters) :
    dlookup "company_id" (tag_metadata company_id m) = some company_id := by
  cases m with
  | none => simp [tag_metadata, dlookup]
  | some metadata => exact dlookup_dinsert_self _ _ _

/-- C3: every metadata record passed to the upsert carries the collection's
own company id; with no caller metadata list a record of exactly the
collection's id is synthesized per document, and a caller-supplied list is
normalized element by element (`None` becomes the fresh record, any other
record has its `company_id` entry overwritten with the collection's id,
whatever the caller put there). -/
theorem C3_metadata_tagged_with_company
    (company_id : String) (num_documents : ℕ)
    (metadatas : Option (List (Option Filters))) :
    (∀ metadata ∈ ensure_metadatas company_id num_documents metadatas,
        dlookup "company_id" metadata = some company_id) ∧
    ensure_metadatas company_id num_documents none =
      List.replicate num_documents [("company_id", company_id)] ∧
    (∀ ms, metadatas = some ms → ms.isEmpty = false →
      ensure_metadatas company_id num_documents metadatas =
        ms.map (tag_metadata company_id)) := by
  refine ⟨?_, rfl, ?_⟩
  · intro metadata hm
    rcases metadatas with _ | ms
    · have hx : metadata = [("company_id", company_id)] :=
        List.eq_of_mem_replicate (by simpa [ensure_metadatas] using hm)
      rw [hx]
      simp [dlookup]
    · by_cases he : ms.isEmpty
      · have hx : metadata = [("company_id", company_id)] :=
          List.eq_of_mem_replicate (by simpa [ensure_metadatas, he] using hm)
        rw [hx]
        simp [dlookup]
      · rw [show ensure_metadatas company_id num_documents (some ms) =
            ms.map (tag_metadata company_id) from by simp [ensure_metadatas, he]] at hm
        obtain ⟨m, _, hm2⟩ := List.mem_map.mp hm
        rw [← hm2]
        exact dlookup_tag_metadata company_id m
  · intro ms hms he
    subst hms
    simp [ensure_metadatas, he]

/-- Witness for C3, at concrete inputs: a `None` element becomes the fresh
record, and a record claiming another company id is overwritten. -/
theorem C3_metadata_tagged_with_company_witness :
    [("company_id", "acme")] ∈
      ensure_metadatas "acme" 2 (some [none, some [("company_id", "evil")]]) ∧
    dlookup "company_id" [("company_id", "acme")] = some "acme" :=
  ⟨by decide,
    (C3_metadata_tagged_with_company "acme" 2
        (some [none, some [("company_id", "evil")]])).1
      [("company_id", "acme")] (by decide)⟩

/-! ### Claim C10 -/

theorem apply_hybrid_search_doc_length (query_text : Str) (res : QueryResult)
    (n_results : ℕ) :
    (apply_hybrid_search query_text res n_results).documents.length ≤ n_results := by
  dsimp only [apply_hybrid_search]
  rw [List.length_map, List.length_map, List.length_take]
  exact min_le_left _ _

/-- C10: on a cache miss, `search` requests exactly `n_results * 2`
candidates from the index when hybrid search is on and exactly `n_results`
when it is off, in a single query; and with hybrid on, the returned result
holds at most `n_results` documents. -/
theorem C10_candidate_counts_and_truncation (company_id : String)
    (index : ℕ → Filters → Except Unit QueryResult) (cache_ttl now : ℚ) (cache : Cache)
    (query_text : Str) (n_results : ℕ) (filters : Filters) (use_hybrid : Bool)
    (hmiss : get_from_cache cache_ttl cache now
        (get_cache_key query_text filters n_results) = none) :
    (search company_id index cache_ttl now cache query_text n_results filters
        use_hybrid).indexCalls =
      [(if use_hybrid then n_results * 2 else n_results,
        build_where_clause company_id filters)] ∧
    (use_hybrid = true →
      (search company_id index cache_ttl now cache query_text n_results filters
          use_hybrid).result.documents.length ≤ n_results) := by
  rcases hidx : index (if use_hybrid then n_results * 2 else n_results)
      (build_where_clause company_id filters) with e | res
  · rw [search_miss_error company_id index cache_ttl now cache query_text n_results filters
      use_hybrid e hmiss hidx]
    exact ⟨rfl, fun _ => Nat.zero_le _⟩
  · rw [search_miss_ok company_id index cache_ttl now cache query_text n_results filters
      use_hybrid res hmiss hidx]
    refine ⟨rfl, fun hy => ?_⟩
    subst hy
    dsimp only
    by_cases hdoc : res.documents.isEmpty
    · simp only [hdoc, Bool.not_true, Bool.and_false, Bool.false_eq_true, if_false]
      rw [List.isEmpty_iff.mp hdoc]
      exact Nat.zero_le _
    · rw [Bool.not_eq_true] at hdoc
      simp only [hdoc, Bool.not_false, Bool.and_true, if_true]
      exact apply_hybrid_search_doc_length query_text res n_results

/-- The concrete three-document index answer used by the C10 witness. -/
def threeDocs : QueryResult :=
  ⟨[['a'], ['b'], ['c']], ["d1", "d2", "d3"], [0, 0, 0], none, none⟩

/-- Witness for C10, at concrete inputs: a hybrid search with `top_k = 1`
asks the index for 2 candidates and returns at most 1 document. -/
theorem C10_candidate_counts_and_truncation_witness :
    get_from_cache 300 ([] : Cache) 0 (get_cache_key [] [] 1) = none ∧
    ((search "acme" (fun _ _ => Except.ok threeDocs) 300 0 [] [] 1 [] true).indexCalls =
        [(if true then 1 * 2 else 1, build_where_clause "acme" [])] ∧
      (true = true →
        (search "acme" (fun _ _ => Except.ok threeDocs) 300 0 [] [] 1 []
            true).result.documents.length ≤ 1)) :=
  ⟨rfl, C10_candidate_counts_and_truncation "acme" (fun _ _ => Except.ok threeDocs)
    300 0 [] [] 1 [] true rfl⟩

/-! ### Claim C6 -/

/-- A store of 101 distinct cache entries, all inserted at time 0. -/
def staleCache : Cache :=
  (List.range 101).map (fun i => ("k" ++ toString i, ((0 : ℚ), emptyResult)))

theorem clean_cache_keeps_age_eq_ttl :
    clean_cache 300 300 (dinsert "fresh" ((300 : ℚ), emptyResult) staleCache) =
      dinsert "fresh" ((300 : ℚ), emptyResult) staleCache := by
  unfold clean_cache
  apply List.filter_eq_self.mpr
  intro e he
  rcases mem_dinsert e _ _ _ he with h1 | h1
  · subst h1
    rw [decide_eq_true_eq]
    norm_num
  · obtain ⟨i, _, hi⟩ := List.mem_map.mp h1
    rw [← hi]
    rw [decide_eq_true_eq]
    norm_num

/-- C6 counterexample: the claim says a put that leaves the store above
`max_entries` sweeps away every expired entry, and that from `max_entries + 1`
entries, all but the newest expired, a put ends at or under `max_entries`
with no expired entry left.  But `_clean_cache` deletes only entries with
`now - timestamp > cache_ttl`, strictly, while `_get_from_cache` already
refuses entries with `now - timestamp ≥ cache_ttl`.  Concretely, with
`cache_ttl = 300`: 101 entries inserted at time 0 and a put at time 300 —
each old entry has age exactly 300, is expired (unservable), yet the sweep
keeps all of them: the store ends at 102 entries with the expired entry
`"k0"` still present. -/
theorem C6_sweep_counterexample :
    100 < (add_to_cache 300 staleCache 300 "fresh" emptyResult).length ∧
    ("k0", ((0 : ℚ), emptyResult)) ∈ add_to_cache 300 staleCache 300 "fresh" emptyResult ∧
    get_from_cache 300 (add_to_cache 300 staleCache 300 "fresh" emptyResult) 300 "k0" =
      none := by
  have hover : 100 < (dinsert "fresh" ((300 : ℚ), emptyResult) staleCache).length := by
    decide
  have hput : add_to_cache 300 staleCache 300 "fresh" emptyResult =
      dinsert "fresh" ((300 : ℚ), emptyResult) staleCache := by
    unfold add_to_cache
    dsimp only
    rw [if_pos hover]
    exact clean_cache_keeps_age_eq_ttl
  rw [hput]
  refine ⟨hover, ?_, ?_⟩
  · exact mem_dinsert_of_mem _ _ (by decide) (by decide)
  · refine get_from_cache_expired 300 _ 300 "k0" 0 emptyResult ?_ (by norm_num)
    rw [dlookup_dinsert_ne _ _ _ _ (by decide)]
    decide

/-- C6 (amended): every put that leaves the store above 100 entries does
trigger the sweep, and the sweep removes exactly the entries strictly older
than the TTL: every surviving entry satisfies `now - timestamp ≤ cache_ttl`
(an entry of age exactly `cache_ttl`, already unservable, survives — the
uncorrected claim fails there).  Consequently, whenever at most 100 entries
of the post-insert store are within the TTL — in particular the scenario
where all but the newest of `max_entries + 1` entries are strictly expired —
the put leaves the store at or under 100 entries with no strictly expired
entry remaining. -/
theorem C6_sweep_on_overflow (cache_ttl now : ℚ) (cache : Cache) (key : String)
    (r : QueryResult)
    (hover : 100 < (dinsert key (now, r) cache).length) :
    add_to_cache cache_ttl cache now key r =
      clean_cache cache_ttl now (dinsert key (now, r) cache) ∧
    (∀ e ∈ add_to_cache cache_ttl cache now key r, now - e.2.1 ≤ cache_ttl) ∧
    (((dinsert key (now, r) cache).filter
        (fun e => decide (now - e.2.1 ≤ cache_ttl))).length ≤ 100 →
      (add_to_cache cache_ttl cache now key r).length ≤ 100) := by
  have heq : add_to_cache cache_ttl cache now key r =
      clean_cache cache_ttl now (dinsert key (now, r) cache) := by
    unfold add_to_cache
    dsimp only
    rw [if_pos hover]
  refine ⟨heq, ?_, ?_⟩
  · intro e he
    rw [heq] at he
    unfold clean_cache at he
    exact of_decide_eq_true (List.mem_filter.mp he).2
  · intro hle
    rw [heq]
    unfold clean_cache
    exact hle

/-- Witness for the amended C6: a put at time 301 into 101 entries of age
301 (strictly expired) sweeps them all, leaving only the fresh entry. -/
theorem C6_sweep_on_overflow_witness :
    100 < (dinsert "fresh" ((301 : ℚ), emptyResult) staleCache).length ∧
    (add_to_cache 300 staleCache 301 "fresh" emptyResult =
        clean_cache 300 301 (dinsert "fresh" ((301 : ℚ), emptyResult) staleCache) ∧
      (∀ e ∈ add_to_cache 300 staleCache 301 "fresh" emptyResult,
          301 - e.2.1 ≤ (300 : ℚ)) ∧
      (((dinsert "fresh" ((301 : ℚ), emptyResult) staleCache).filter
          (fun e => decide ((301 : ℚ) - e.2.1 ≤ 300))).length ≤ 100 →
        (add_to_cache 300 staleCache 301 "fresh" emptyResult).length ≤ 100)) :=
  ⟨by decide, C6_sweep_on_overflow 300 301 staleCache "fresh" emptyResult (by decide)⟩

/-! ### Claim C7 -/

theorem sorted_keys_perm_eq :
    ∀ (l1 l2 : Filters), l1.Perm l2 →
      l1.Pairwise (fun a b => a.1 ≤ b.1) → l2.Pairwise (fun a b => a.1 ≤ b.1) →
      (l1.map Prod.fst).Nodup → l1 = l2 := by
  intro l1
  induction l1 with
  | nil =>
    intro l2 hperm _ _ _
    exact hperm.symm.eq_nil.symm
  | cons a t ih =>
    intro l2 hperm hs1 hs2 hnd
    cases l2 with
    | nil => exact absurd hperm.eq_nil (List.cons_ne_nil a t)
    | cons b t2 =>
      rw [List.map_cons] at hnd
      have hnd2 := List.nodup_cons.mp hnd
      have hab : a = b := by
        rcases List.mem_cons.mp (hperm.mem_iff.mpr (List.mem_cons_self b t2)) with h | hbt
        · exact h.symm
        · rcases List.mem_cons.mp (hperm.symm.mem_iff.mpr (List.mem_cons_self a t)) with h | hat2
          · exact h
          · have h1 : a.1 ≤ b.1 := (List.pairwise_cons.mp hs1).1 b hbt
            have h2 : b.1 ≤ a.1 := (List.pairwise_cons.mp hs2).1 a hat2
            have hkey : a.1 = b.1 := le_antisymm h1 h2
            exfalso
            apply hnd2.1
            rw [hkey]
            exact List.mem_map_of_mem Prod.fst hbt
      subst hab
      have ht := hperm.cons_inv
      rw [ih t2 ht (List.pairwise_cons.mp hs1).2 (List.pairwise_cons.mp hs2).2 hnd2.2]

theorem sortedFilters_sorted (filters : Filters) :
    (sortedFilters filters).Pairwise (fun a b => a.1 ≤ b.1) := by
  have h := @List.sorted_mergeSort (String × String) (fun a b => decide (a.1 ≤ b.1))
    (fun a b c hab hbc =>
      decide_eq_true (le_trans (of_decide_eq_true hab) (of_decide_eq_true hbc)))
    (fun a b => by
      rcases le_total a.1 b.1 with h | h
      · simp [h]
      · simp [h])
    filters
  exact h.imp (fun hab => of_decide_eq_true hab)

/-- C7: the cache key is an order-independent function of
`(query_text, top_k, filters)`: two filter dicts holding the same entries in
different insertion orders yield the same key, so the two queries hit the
same cache entry (`json.dumps(..., sort_keys=True)` serializes by sorted
key, and the keys of a dict are distinct). -/
theorem C7_cache_key_order_independent
    (query_text : Str) (n_results : ℕ) (fs1 fs2 : Filters)
    (hperm : fs1.Perm fs2) (hkeys : (fs1.map Prod.fst).Nodup) :
    get_cache_key query_text fs1 n_results = get_cache_key query_text fs2 n_results := by
  have hsorted : sortedFilters fs1 = sortedFilters fs2 := by
    apply sorted_keys_perm_eq
    · exact ((List.mergeSort_perm fs1 (fun a b => decide (a.1 ≤ b.1))).trans hperm).trans
        (List.mergeSort_perm fs2 (fun a b => decide (a.1 ≤ b.1))).symm
    · exact sortedFilters_sorted fs1
    · exact sortedFilters_sorted fs2
    · exact ((List.mergeSort_perm fs1 (fun a b => decide (a.1 ≤ b.1))).map
        Prod.fst).nodup_iff.mpr hkeys
  have hempty : fs1.isEmpty = fs2.isEmpty := by
    cases fs1 with
    | nil =>
      have h2 : fs2 = [] := hperm.symm.eq_nil
      rw [h2]
    | cons a t =>
      cases fs2 with
      | nil => exact absurd hperm.eq_nil (List.cons_ne_nil a t)
      | cons b t2 => rfl
  unfold get_cache_key filterStr
  rw [hsorted, hempty]

/-- Witness for C7: the same two filter entries in either insertion order
give the same cache key. -/
theorem C7_cache_key_order_independent_witness :
    ([("b", "2"), ("a", "1")] : Filters).Perm [("a", "1"), ("b", "2")] ∧
    (([("b", "2"), ("a", "1")] : Filters).map Prod.fst).Nodup ∧
    get_cache_key ['q'] [("b", "2"), ("a", "1")] 5 =
      get_cache_key ['q'] [("a", "1"), ("b", "2")] 5 :=
  ⟨List.Perm.swap _ _ _, by decide,
    C7_cache_key_order_independent ['q'] 5 [("b", "2"), ("a", "1")]
      [("a", "1"), ("b", "2")] (List.Perm.swap _ _ _) (by decide)⟩

/-! ### Claim C8 -/

theorem calculate_keyword_score_nonneg (text : Str) (keywords : List Str) :
    0 ≤ calculate_keyword_score text keywords := by
  unfold calculate_keyword_score
  dsimp only
  split
  · exact le_refl 0
  · have hsc : (0 : ℚ) ≤
        ((keywords.filter
            (fun keyword => decide (keyword <:+: text.map Char.toLower))).length : ℚ) /
          (keywords.length : ℚ) := by positivity
    split
    · rw [ratMin_eq_min]
      exact le_min (by linarith) (by norm_num)
    · exact hsc

theorem calculate_keyword_score_le_one (text : Str) (keywords : List Str) :
    calculate_keyword_score text keywords ≤ 1 := by
  unfold calculate_keyword_score
  dsimp only
  split
  · norm_num
  · next h =>
    have hne : keywords ≠ [] := by
      intro hk
      rw [hk] at h
      exact h rfl
    have hpos : (0 : ℚ) < (keywords.length : ℚ) := by
      exact_mod_cast List.length_pos.mpr hne
    have hle : ((keywords.filter
          (fun keyword => decide (keyword <:+: text.map Char.toLower))).length : ℚ) ≤
        (keywords.length : ℚ) := by
      exact_mod_cast List.length_filter_le _ _
    split
    · rw [ratMin_eq_min]
      exact min_le_right _ _
    · rw [div_le_one hpos]
      exact hle

theorem vector_score_bounds (distance : ℚ) (hd : 0 ≤ distance) :
    0 ≤ vector_score distance ∧ vector_score distance ≤ 1 := by
  unfold vector_score
  rw [ratMin_eq_min]
  constructor
  · have h := min_le_right distance (1 : ℚ)
    linarith
  · have h : (0 : ℚ) ≤ min distance 1 := le_min hd (by norm_num)
    linarith

/-- C8: on a hybrid reranking pass, the keyword score is the fraction of the
extracted keywords occurring as substrings of the lowercased candidate text
(0 when there are no keywords), plus a flat 0.3 bonus capped at 1 when the
keywords joined by single spaces occur verbatim; the vector score is
`1 - min(distance, 1)`; the combined score is their 0.7/0.3 blend; and for a
non-negative distance all three scores lie in `[0, 1]`. -/
theorem C8_score_formulas_and_bounds (text query_text : Str) (distance : ℚ)
    (hd : 0 ≤ distance) :
    combined_score text (extract_keywords query_text) distance =
      vector_score distance * (7/10) +
        calculate_keyword_score text (extract_keywords query_text) * (3/10) ∧
    vector_score distance = 1 - ratMin distance 1 ∧
    (extract_keywords query_text = [] →
      calculate_keyword_score text (extract_keywords query_text) = 0) ∧
    (extract_keywords query_text ≠ [] →
      calculate_keyword_score text (extract_keywords query_text) =
        (if List.intercalate [' '] (extract_keywords query_text) <:+:
            text.map Char.toLower
         then ratMin
            ((((extract_keywords query_text).filter
                (fun keyword => decide (keyword <:+: text.map Char.toLower))).length : ℚ) /
              ((extract_keywords query_text).length : ℚ) + 3/10) 1
         else (((extract_keywords query_text).filter
                (fun keyword => decide (keyword <:+: text.map Char.toLower))).length : ℚ) /
              ((extract_keywords query_text).length : ℚ))) ∧
    0 ≤ vector_score distance ∧ vector_score distance ≤ 1 ∧
    0 ≤ calculate_keyword_score text (extract_keywords query_text) ∧
    calculate_keyword_score text (extract_keywords query_text) ≤ 1 ∧
    0 ≤ combined_score text (extract_keywords query_text) distance ∧
    combined_score text (extract_keywords query_text) distance ≤ 1 := by
  have hv := vector_score_bounds distance hd
  have hk0 := calculate_keyword_score_nonneg text (extract_keywords query_text)
  have hk1 := calculate_keyword_score_le_one text (extract_keywords query_text)
  refine ⟨rfl, rfl, ?_, ?_, hv.1, hv.2, hk0, hk1, ?_, ?_⟩
  · intro hkw
    rw [hkw]
    rfl
  · intro hkw
    unfold calculate_keyword_score
    dsimp only
    rw [if_neg (fun hk => hkw (List.isEmpty_iff.mp hk))]
  · unfold combined_score
    have h1 : 0 ≤ vector_score distance * (7/10) := by linarith
    have h2 : 0 ≤ calculate_keyword_score text (extract_keywords query_text) * (3/10) := by
      linarith
    linarith
  · unfold combined_score
    have h1 : vector_score distance * (7/10) ≤ 7/10 := by linarith
    have h2 : calculate_keyword_score text (extract_keywords query_text) * (3/10) ≤ 3/10 := by
      linarith
    linarith

/-- Witness for C8, at concrete inputs (candidate text `"a"`, empty query,
distance 0). -/
theorem C8_score_formulas_and_bounds_witness :
    (0 : ℚ) ≤ 0 ∧
    (combined_score ['a'] (extract_keywords []) 0 =
      vector_score 0 * (7/10) +
        calculate_keyword_score ['a'] (extract_keywords []) * (3/10) ∧
    vector_score 0 = 1 - ratMin 0 1 ∧
    (extract_keywords [] = [] →
      calculate_keyword_score ['a'] (extract_keywords []) = 0) ∧
    (extract_keywords [] ≠ [] →
      calculate_keyword_score ['a'] (extract_keywords []) =
        (if List.intercalate [' '] (extract_keywords []) <:+:
            (['a'] : Str).map Char.toLower
         then ratMin
            ((((extract_keywords []).filter
                (fun keyword =>
                  decide (keyword <:+: (['a'] : Str).map Char.toLower))).length : ℚ) /
              ((extract_keywords []).length : ℚ) + 3/10) 1
         else (((extract_keywords []).filter
                (fun keyword =>
                  decide (keyword <:+: (['a'] : Str).map Char.toLower))).length : ℚ) /
              ((extract_keywords []).length : ℚ))) ∧
    0 ≤ vector_score 0 ∧ vector_score 0 ≤ 1 ∧
    0 ≤ calculate_keyword_score ['a'] (extract_keywords []) ∧
    calculate_keyword_score ['a'] (extract_keywords []) ≤ 1 ∧
    0 ≤ combined_score ['a'] (extract_keywords []) 0 ∧
    combined_score ['a'] (extract_keywords []) 0 ≤ 1) :=
  ⟨le_refl 0, C8_score_formulas_and_bounds ['a'] [] 0 (le_refl 0)⟩

/-! ### Claim C9 -/

theorem pair_sublist {α : Type} :
    ∀ (l : List α) (i j : ℕ), i < j → ∀ x y, l[i]? = some x → l[j]? = some y →
      [x, y].Sublist l := by
  intro l
  induction l with
  | nil =>
    intro i j _ x y hx _
    simp at hx
  | cons a t ih =>
    intro i j hij x y hx hy
    cases i with
    | zero =>
      cases j with
      | zero => omega
      | succ j' =>
        rw [List.getElem?_cons_zero] at hx
        rw [List.getElem?_cons_succ] at hy
        have hxa : x = a := (Option.some.injEq _ _ ▸ hx).symm
        subst hxa
        exact List.Sublist.cons₂ x (List.singleton_sublist.mpr (List.getElem?_mem hy))
    | succ i' =>
      cases j with
      | zero => omega
      | succ j' =>
        rw [List.getElem?_cons_succ] at hx
        rw [List.getElem?_cons_succ] at hy
        exact List.Sublist.cons a (ih i' j' (by omega) x y hx hy)

theorem hybrid_scores_getElem? (query_text : Str) (docs : List Str) (dists : List ℚ)
    (p : ℕ × ℚ) (hp : p ∈ hybrid_scores query_text docs dists) :
    (hybrid_scores query_text docs dists)[p.1]? = some p := by
  unfold hybrid_scores at hp ⊢
  dsimp only at hp ⊢
  obtain ⟨q, hq, hqp⟩ := List.mem_map.mp hp
  have hzip := List.mem_enum_iff_getElem?.mp hq
  have henum : ((docs.zip dists).enum)[q.1]? = some q := by
    rw [List.getElem?_enum, hzip]
    rfl
  have hfst : p.1 = q.1 := by rw [← hqp]
  rw [hfst, List.getElem?_map, henum]
  exact congrArg some hqp

theorem rankedScores_sorted (query_text : Str) (docs : List Str) (dists : List ℚ) :
    (rankedScores query_text docs dists).Pairwise (fun a b => b.2 ≤ a.2) := by
  unfold rankedScores
  have h := @List.sorted_mergeSort (ℕ × ℚ) (fun a b => decide (b.2 ≤ a.2))
    (fun a b c hab hbc =>
      decide_eq_true (le_trans (of_decide_eq_true hbc) (of_decide_eq_true hab)))
    (fun a b => by
      rcases le_total a.2 b.2 with h | h
      · simp [h]
      · simp [h])
    (hybrid_scores query_text docs dists)
  exact h.imp (fun hab => of_decide_eq_true hab)

theorem rankedScores_stable (query_text : Str) (docs : List Str) (dists : List ℚ)
    (i j : ℕ) (s : ℚ) (hij : i < j)
    (hi : (i, s) ∈ hybrid_scores query_text docs dists)
    (hj : (j, s) ∈ hybrid_scores query_text docs dists) :
    [(i, s), (j, s)].Sublist (rankedScores query_text docs dists) := by
  have hi' := hybrid_scores_getElem? query_text docs dists (i, s) hi
  have hj' := hybrid_scores_getElem? query_text docs dists (j, s) hj
  have hsub : [(i, s), (j, s)].Sublist (hybrid_scores query_text docs dists) :=
    pair_sublist _ i j hij _ _ hi' hj'
  unfold rankedScores
  exact @List.sublist_mergeSort (ℕ × ℚ) (fun a b => decide (b.2 ≤ a.2))
    (hybrid_scores query_text docs dists)
    (fun a b c hab hbc =>
      decide_eq_true (le_trans (of_decide_eq_true hbc) (of_decide_eq_true hab)))
    (fun a b => by
      rcases le_total a.2 b.2 with h | h
      · simp [h]
      · simp [h])
    [(i, s), (j, s)] (by simp) hsub

/-- C9: the hybrid reranking is a pure function, so repeated runs coincide;
the output relevance scores are in descending order of combined score; and
the sort is stable: two candidates with equal combined scores keep their
original relative input order in the ranked list. -/
theorem C9_rerank_deterministic_and_stable (query_text : Str) (res : QueryResult)
    (n_results : ℕ) :
    apply_hybrid_search query_text res n_results =
      apply_hybrid_search query_text res n_results ∧
    List.Pairwise (fun a b => b ≤ a)
      ((apply_hybrid_search query_text res n_results).relevance_scores.getD []) ∧
    (∀ i j : ℕ, ∀ s : ℚ, i < j →
      (i, s) ∈ hybrid_scores query_text res.documents res.distances →
      (j, s) ∈ hybrid_scores query_text res.documents res.distances →
      [(i, s), (j, s)].Sublist (rankedScores query_text res.documents res.distances)) := by
  refine ⟨rfl, ?_, ?_⟩
  · have hs := rankedScores_sorted query_text res.documents res.distances
    have ht : ((rankedScores query_text res.documents res.distances).take
        n_results).Pairwise (fun a b => b.2 ≤ a.2) :=
      List.Pairwise.sublist (List.take_sublist _ _) hs
    dsimp only [apply_hybrid_search]
    rw [Option.getD_some]
    exact List.pairwise_map.mpr ht
  · exact fun i j s hij hi hj =>
      rankedScores_stable query_text res.documents res.distances i j s hij hi hj

/-- Witness for C9: two identical documents at the same distance get equal
combined scores, and the reranking keeps them in input order. -/
theorem C9_rerank_deterministic_and_stable_witness :
    ((0 : ℕ) < 1) ∧
    ((0, combined_score ['a'] (extract_keywords []) 0) ∈
      hybrid_scores [] [['a'], ['a']] [0, 0]) ∧
    ((1, combined_score ['a'] (extract_keywords []) 0) ∈
      hybrid_scores [] [['a'], ['a']] [0, 0]) ∧
    [((0 : ℕ), combined_score ['a'] (extract_keywords []) 0),
      (1, combined_score ['a'] (extract_keywords []) 0)].Sublist
      (rankedScores [] [['a'], ['a']] [0, 0]) := by
  have h0 : ((0 : ℕ), combined_score ['a'] (extract_keywords []) 0) ∈
      hybrid_scores [] [['a'], ['a']] [0, 0] := List.mem_cons_self _ _
  have h1 : ((1 : ℕ), combined_score ['a'] (extract_keywords []) 0) ∈
      hybrid_scores [] [['a'], ['a']] [0, 0] :=
    List.mem_cons_of_mem _ (List.mem_cons_self _ _)
  exact ⟨Nat.zero_lt_one, h0, h1,
    (C9_rerank_deterministic_and_stable []
        ⟨[['a'], ['a']], ["d1", "d2"], [0, 0], none, none⟩ 2).2.2
      0 1 (combined_score ['a'] (extract_keywords []) 0) Nat.zero_lt_one h0 h1⟩
